import Mathlib

/-!
Shallow embedding of `qtpynodeeditor/dynamic_node_data_model.py`
(class `DynamicNodeDataModel`): the dynamic input-port controller.

The controller state consists of the bookkeeping fields
`_active_input_count`, `_spare_input_index`, `_connected_inputs`,
`_disconnected_inputs` together with the per-port display dictionaries
`port_visible['input']`, `port_caption['input']` and
`port_caption_visible['input']` (keyed by `0 .. max_inputs - 1`;
modelled as lists of that length).  The static configuration —
`num_ports['input']`, `static_input_ports`, `dynamic_input_ports`
(after the `__init__` auto-detection resolved `None` to concrete
ranges) and the `_original_port_caption` snapshot — is modelled as a
`Config`.  Python `range` objects are modelled as the ascending lists
they enumerate; Python `set`s as duplicate-free lists; the `int` fields
`_active_input_count` and `_spare_input_index` (which uses the `-1`
sentinel) as `Int`.

The base-class hooks `NodeDataModel.input_connection_created/deleted`
(called via `super()`) live outside this file's source; per the spec
they perform "ordinary (non-packing) connection handling — no
state-machine effect", so they leave every field modelled here
unchanged.  Qt signal emissions (`embedded_widget_size_updated`,
`data_updated`) carry no state and are not modelled.
-/

namespace DynamicNode

/-- Static configuration of a `DynamicNodeDataModel` instance, after
`__init__` has resolved the optional `static_input_ports` /
`dynamic_input_ports` to concrete sequences and has snapshotted
`_original_port_caption` (keys `0 .. maxInputs - 1`). -/
structure Config where
  maxInputs : Nat
  staticPorts : List Nat
  dynamicPorts : List Nat
  origCaption : Nat → String

/-- Mutable controller state of one `DynamicNodeDataModel` instance. -/
structure DState where
  activeInputCount : Int
  spareInputIndex : Int
  connectedInputs : List Nat
  disconnectedInputs : List Nat
  portVisible : List Bool
  portCaption : List String
  portCaptionVisible : List Bool
  deriving DecidableEq

/-- `self._original_port_caption.get(i, f"Input {i + 1}")`: the
snapshot dictionary holds keys `0 .. maxInputs - 1`; other keys fall
back to the f-string default. -/
def origCaptionGet (cfg : Config) (i : Nat) : String :=
  if i < cfg.maxInputs then cfg.origCaption i else "Input " ++ toString (i + 1)

/-- Python `set.add(i)`: the set is unchanged when `i` is already a
member, otherwise `i` joins the enumeration.  Python sets are modelled
as duplicate-free lists (one fixed enumeration of the set). -/
def pyInsert (l : List Nat) (i : Nat) : List Nat :=
  if i ∈ l then l else l.concat i

/-- Python `set.discard(i)`. -/
def pyDiscard (l : List Nat) (i : Nat) : List Nat :=
  l.filter (fun j => j ≠ i)

/-- Python `sorted(xs)`: the ascending sort (insertion sort is used so
that the function reduces inside the kernel). -/
def pySorted (l : List Nat) : List Nat :=
  l.insertionSort (· ≤ ·)

/-- `is_static_port`: `self.static_input_ports and port_index in
self.static_input_ports` (an empty sequence is falsy). -/
def is_static_port (cfg : Config) (i : Nat) : Bool :=
  !cfg.staticPorts.isEmpty && cfg.staticPorts.contains i

/-- `is_dynamic_port`: `self.dynamic_input_ports and port_index in
self.dynamic_input_ports`. -/
def is_dynamic_port (cfg : Config) (i : Nat) : Bool :=
  !cfg.dynamicPorts.isEmpty && cfg.dynamicPorts.contains i

/-- `is_spare_port`: `port_index == self._spare_input_index`. -/
def is_spare_port (s : DState) (i : Nat) : Bool :=
  (i : Int) == s.spareInputIndex

/-- `is_connected_port`: `port_index in self._connected_inputs`. -/
def is_connected_port (s : DState) (i : Nat) : Bool :=
  decide (i ∈ s.connectedInputs)

/-- `is_disconnected_port`: `port_index in self._disconnected_inputs`. -/
def is_disconnected_port (s : DState) (i : Nat) : Bool :=
  decide (i ∈ s.disconnectedInputs)

/-- `get_visual_port_ordering`: static ports sorted ascending (when
the static sequence is non-empty), then — when the dynamic sequence is
non-empty — the connected dynamic indices sorted ascending, the spare
index when it is `>= 0` and a member of the dynamic sequence, and the
disconnected dynamic indices sorted ascending.  Python's
`sorted(list-comprehension)` is the ascending sort of the filtered
enumeration, which `pySorted` computes. -/
def get_visual_port_ordering (cfg : Config) (s : DState) : List Nat :=
  let part1 : List Nat :=
    if cfg.staticPorts.isEmpty then [] else pySorted cfg.staticPorts
  if cfg.dynamicPorts.isEmpty then part1
  else
    let dynConnected :=
      pySorted (s.connectedInputs.filter (fun i => decide (i ∈ cfg.dynamicPorts)))
    let dynDisconnected :=
      pySorted (s.disconnectedInputs.filter (fun i => decide (i ∈ cfg.dynamicPorts)))
    let sparePart : List Nat :=
      if 0 ≤ s.spareInputIndex ∧ s.spareInputIndex.toNat ∈ cfg.dynamicPorts then
        [s.spareInputIndex.toNat]
      else []
    part1 ++ dynConnected ++ sparePart ++ dynDisconnected

/-- `logical_to_visual_index`: position of a logical index in the
visual ordering, `None` for a hidden/invalid port. -/
def logical_to_visual_index (cfg : Config) (s : DState) (i : Nat) : Option Nat :=
  (get_visual_port_ordering cfg s).indexOf? i

/-- `visual_to_logical_index`. -/
def visual_to_logical_index (cfg : Config) (s : DState) (v : Nat) : Option Nat :=
  (get_visual_port_ordering cfg s).get? v

/-- `get_visual_port_count`. -/
def get_visual_port_count (cfg : Config) (s : DState) : Nat :=
  (get_visual_port_ordering cfg s).length

/-- A sequence of dictionary writes `d[i] = f(i)` for `i` in `idxs`,
on a dictionary modelled as a list over keys `0 .. length - 1`. -/
def writeAll (l : List α) (idxs : List Nat) (f : Nat → α) : List α :=
  idxs.foldl (fun a i => a.set i (f i)) l

/-- The dynamic indices walked by the third pass of
`_update_port_display`: the members of `get_visual_port_ordering()`
that pass `is_dynamic_port`. -/
def dynVisual (cfg : Config) (s : DState) : List Nat :=
  (get_visual_port_ordering cfg s).filter (fun i => is_dynamic_port cfg i)

/-- `_update_port_display`: hide every port in `range(max_inputs)` and
blank its caption; then make each static port visible with its
original caption; then walk `get_visual_port_ordering()` and make each
dynamic index in it visible — the spare (when `>= 0`) with the
`"Connect here"` caption, connected/disconnected ports with their
original caption.  The three dictionaries are written independently,
and every write at one key stores a value depending only on that key,
so each dictionary is the corresponding chain of `writeAll`s. -/
def updatePortDisplay (cfg : Config) (s : DState) : DState :=
  let dynVisual := dynVisual cfg s
  { s with
    portVisible :=
      writeAll
        (writeAll (writeAll s.portVisible (List.range cfg.maxInputs) (fun _ => false))
          cfg.staticPorts (fun _ => true))
        dynVisual (fun _ => true)
    portCaption :=
      writeAll
        (writeAll (writeAll s.portCaption (List.range cfg.maxInputs) (fun _ => ""))
          cfg.staticPorts (fun j => origCaptionGet cfg j))
        dynVisual (fun j =>
          if (j : Int) = s.spareInputIndex ∧ 0 ≤ s.spareInputIndex then "Connect here"
          else origCaptionGet cfg j)
    portCaptionVisible :=
      writeAll
        (writeAll (writeAll s.portCaptionVisible (List.range cfg.maxInputs) (fun _ => false))
          cfg.staticPorts (fun _ => true))
        dynVisual (fun _ => true) }

/-- `can_connect_to_port` for `port_type == PortType.input`:
`self.port_visible.get(PortType.input, {}).get(port_index, True)` —
the dictionary holds keys `0 .. max_inputs - 1`, any other index
returns the `True` default. -/
def can_connect_to_port (s : DState) (i : Nat) : Bool :=
  s.portVisible.getD i true

/-- The ascending `for i in self.dynamic_input_ports` scan used for
spare re-assignment: first dynamic index not in `conn` and not in
`disc`, else the `-1` sentinel (the `for`/`else` clause). -/
def spareScan (cfg : Config) (conn disc : List Nat) : Int :=
  match cfg.dynamicPorts.find? (fun j => decide (j ∉ conn ∧ j ∉ disc)) with
  | some j => (j : Int)
  | none => -1

/-- `input_connection_created` at input-port index `i`.  Returns the
new state together with a flag that is `true` exactly when the
connection was rejected and a deferred
`_remove_invalid_connection(connection)` was scheduled via
`QTimer.singleShot`.  The `super()` call performs ordinary non-packing
handling with no effect on the modelled fields. -/
def input_connection_created (cfg : Config) (s : DState) (i : Nat) : DState × Bool :=
  if is_static_port cfg i then (s, false)
  else if !is_dynamic_port cfg i then (s, false)
  else if !can_connect_to_port s i then (s, true)
  else if i ∈ s.disconnectedInputs then
    let s' := { s with
      disconnectedInputs := pyDiscard s.disconnectedInputs i
      connectedInputs := pyInsert s.connectedInputs i }
    (updatePortDisplay cfg s', false)
  else if (i : Int) = s.spareInputIndex then
    let conn' := pyInsert s.connectedInputs i
    let s' := { s with
      connectedInputs := conn'
      activeInputCount := s.activeInputCount + 1
      spareInputIndex := spareScan cfg conn' s.disconnectedInputs }
    (updatePortDisplay cfg s', false)
  else (s, false)

/-- `input_connection_deleted` at input-port index `i`. -/
def input_connection_deleted (cfg : Config) (s : DState) (i : Nat) : DState :=
  if is_static_port cfg i then s
  else if !is_dynamic_port cfg i then s
  else if i ∈ s.connectedInputs then
    let conn' := pyDiscard s.connectedInputs i
    let disc' := pyInsert s.disconnectedInputs i
    if (i : Int) = s.activeInputCount - 1 then
      updatePortDisplay cfg { s with
        connectedInputs := conn'
        disconnectedInputs := disc'
        activeInputCount := s.activeInputCount - 1
        spareInputIndex := spareScan cfg conn' disc' }
    else
      updatePortDisplay cfg { s with
        connectedInputs := conn'
        disconnectedInputs := disc' }
  else if (i : Int) = s.spareInputIndex then
    let disc' := pyInsert s.disconnectedInputs i
    updatePortDisplay cfg { s with
      disconnectedInputs := disc'
      spareInputIndex := spareScan cfg s.connectedInputs disc' }
  else s

/-- `__init__` (after configuration resolution): counters zeroed, the
spare at `min(self.dynamic_input_ports)` or `-1` for an empty dynamic
sequence, empty connected/disconnected sets, `port_visible['input']`
all-hidden over `range(max_inputs)`, followed by the
`_update_port_display()` call.  The pre-display caption dictionaries
(deep-copied class attributes over the same keys) are entirely
overwritten by the display pass, so their initial entries are blank
here. -/
def initState (cfg : Config) : DState :=
  updatePortDisplay cfg
    { activeInputCount := 0
      spareInputIndex :=
        match cfg.dynamicPorts.min? with
        | some m => (m : Int)
        | none => -1
      connectedInputs := []
      disconnectedInputs := []
      portVisible := List.replicate cfg.maxInputs false
      portCaption := List.replicate cfg.maxInputs ""
      portCaptionVisible := List.replicate cfg.maxInputs false }

/-- The two connection-lifecycle events delivered to the controller. -/
inductive Event where
  | created (i : Nat)
  | deleted (i : Nat)
  deriving DecidableEq

/-- Apply one event (discarding the deferred-removal flag, which
carries no controller state). -/
def applyEvent (cfg : Config) (s : DState) : Event → DState
  | .created i => (input_connection_created cfg s i).1
  | .deleted i => input_connection_deleted cfg s i

/-- Run a sequence of events from a state. -/
def runEvents (cfg : Config) (s : DState) (es : List Event) : DState :=
  es.foldl (applyEvent cfg) s

/-- States reachable from construction by connection-lifecycle events. -/
def Reachable (cfg : Config) (s : DState) : Prop :=
  ∃ es : List Event, s = runEvents cfg (initState cfg) es

/-- The `dynamic_node_state` sub-record written by `save()` and read
by `restore()`. -/
structure DynamicNodeState where
  active_input_count : Int
  spare_input_index : Int
  connected_inputs : List Nat
  disconnected_inputs : List Nat
  deriving DecidableEq

/-- `save`: serialize the four bookkeeping fields.  Python's
`list(set)` enumerates the set; the model's duplicate-free list is
exactly such an enumeration. -/
def save (s : DState) : DynamicNodeState :=
  { active_input_count := s.activeInputCount
    spare_input_index := s.spareInputIndex
    connected_inputs := s.connectedInputs
    disconnected_inputs := s.disconnectedInputs }

/-- `restore` with the `dynamic_node_state` key present: reinstate the
four fields (lists back through `set(...)`, which drops duplicates)
and re-run `_update_port_display()`. -/
def restore (cfg : Config) (s : DState) (rec : DynamicNodeState) : DState :=
  updatePortDisplay cfg
    { s with
      activeInputCount := rec.active_input_count
      spareInputIndex := rec.spare_input_index
      connectedInputs := rec.connected_inputs.dedup
      disconnectedInputs := rec.disconnected_inputs.dedup }

/-- The spec's slot classification: a dynamic slot is `hidden` when it
is not the spare, not connected and not disconnected ("not yet reached
by spare-advancement; invisible, no caption"). -/
def hiddenSlot (cfg : Config) (s : DState) (i : Nat) : Bool :=
  is_dynamic_port cfg i && !is_spare_port s i && !is_connected_port s i &&
    !is_disconnected_port s i

/-- The visual ordering as §4.1 of the spec words it: static indices
ascending, then connected dynamic indices ascending, then the spare
index if one exists, then disconnected dynamic indices ascending.
Kept separate from `get_visual_port_ordering` (the code's definition)
so the two can be compared. -/
def specVisualOrdering (cfg : Config) (s : DState) : List Nat :=
  pySorted cfg.staticPorts ++
    pySorted (s.connectedInputs.filter (fun i => decide (i ∈ cfg.dynamicPorts))) ++
    (if 0 ≤ s.spareInputIndex then [s.spareInputIndex.toNat] else []) ++
    pySorted (s.disconnectedInputs.filter (fun i => decide (i ∈ cfg.dynamicPorts)))

/-- Well-formed configuration, as the class docstring and the spec
describe it: `static_input_ports` and `dynamic_input_ports` are
disjoint ascending ranges of indices below `num_ports['input']`. -/
structure Config.Wf (cfg : Config) : Prop where
  static_lt : ∀ i ∈ cfg.staticPorts, i < cfg.maxInputs
  dyn_lt : ∀ i ∈ cfg.dynamicPorts, i < cfg.maxInputs
  disj : ∀ i ∈ cfg.staticPorts, i ∉ cfg.dynamicPorts
  static_sorted : cfg.staticPorts.Sorted (· < ·)
  dyn_sorted : cfg.dynamicPorts.Sorted (· < ·)

/-- The controller's core invariant over the bookkeeping fields: the
spare index (when one exists) is a dynamic index outside both sets,
and the connected and disconnected sets are disjoint. -/
structure Inv (cfg : Config) (s : DState) : Prop where
  spare_not_conn : ∀ i : Nat, (i : Int) = s.spareInputIndex → i ∉ s.connectedInputs
  spare_not_disc : ∀ i : Nat, (i : Int) = s.spareInputIndex → i ∉ s.disconnectedInputs
  conn_disc : ∀ i : Nat, i ∈ s.connectedInputs → i ∉ s.disconnectedInputs
  spare_dyn : 0 ≤ s.spareInputIndex → s.spareInputIndex.toNat ∈ cfg.dynamicPorts

/-- The three display dictionaries hold exactly the keys
`0 .. maxInputs - 1`. -/
def GoodLengths (cfg : Config) (s : DState) : Prop :=
  s.portVisible.length = cfg.maxInputs ∧ s.portCaption.length = cfg.maxInputs ∧
    s.portCaptionVisible.length = cfg.maxInputs

/-- Every state the controller exposes is the image of a
display-refresh: either the freshly constructed state or the result of
a mutating branch, both of which end in `_update_port_display()`. -/
def DisplayImage (cfg : Config) (s : DState) : Prop :=
  GoodLengths cfg s ∧ ∃ s₀, GoodLengths cfg s₀ ∧ s = updatePortDisplay cfg s₀

/-- The connected/disconnected lists remain duplicate-free
enumerations (Python sets cannot hold duplicates). -/
def NodupSets (s : DState) : Prop :=
  s.connectedInputs.Nodup ∧ s.disconnectedInputs.Nodup

/-- The generic fallback caption family `f"Input {i + 1}"`. -/
def defaultCaption : Nat → String := fun i => "Input " ++ toString (i + 1)

/-- `num_ports['input'] = 1`, all ports dynamic: dynamic set `{0}`. -/
def cfgSingle : Config := ⟨1, [], [0], defaultCaption⟩

/-- `num_ports['input'] = 2`, dynamic set `{0, 1}`. -/
def cfgPair : Config := ⟨2, [], [0, 1], defaultCaption⟩

/-- `num_ports['input'] = 3`, dynamic set `{0, 1, 2}`. -/
def cfgTriple : Config := ⟨3, [], [0, 1, 2], defaultCaption⟩

/-- `num_ports['input'] = 5`, dynamic set `{0, 1, 2, 3, 4}` (the class
default configuration). -/
def cfgFive : Config := ⟨5, [], [0, 1, 2, 3, 4], defaultCaption⟩

/-- static set `{0}`, dynamic set `{1, 2, 3}`. -/
def cfgMixed : Config := ⟨4, [0], [1, 2, 3], defaultCaption⟩

/-- `num_ports['input'] = 8`, dynamic set `{3, 4, 5, 6, 7}`. -/
def cfgSpec : Config := ⟨8, [], [3, 4, 5, 6, 7], defaultCaption⟩

/-- The state of §8's visual-ordering example: connected `{1}`, spare
`2`, disconnected `{3}` (display lists irrelevant to the ordering). -/
def sExample : DState := ⟨1, 2, [1], [3], [], [], []⟩

/-! ### Lemmas about `writeAll` -/

theorem writeAll_cons (l : List α) (a : Nat) (t : List Nat) (f : Nat → α) :
    writeAll l (a :: t) f = writeAll (l.set a (f a)) t f := rfl

theorem writeAll_length (l : List α) (idxs : List Nat) (f : Nat → α) :
    (writeAll l idxs f).length = l.length := by
  induction idxs generalizing l with
  | nil => rfl
  | cons a t ih => rw [writeAll_cons, ih, List.length_set]

theorem writeAll_getElem? (l : List α) (idxs : List Nat) (f : Nat → α) (i : Nat) :
    (writeAll l idxs f)[i]? =
      if i ∈ idxs ∧ i < l.length then some (f i) else l[i]? := by
  induction idxs generalizing l with
  | nil => simp [writeAll]
  | cons a t ih =>
    rw [writeAll_cons, ih, List.length_set]
    by_cases hat : i ∈ t
    · by_cases hl : i < l.length
      · simp [hat, hl, List.mem_cons]
      · have hnone : l[i]? = none := List.getElem?_eq_none (by omega)
        have hnone' : (l.set a (f a))[i]? = none :=
          List.getElem?_eq_none (by rw [List.length_set]; omega)
        simp [hat, hl, hnone, hnone']
    · by_cases hia : i = a
      · subst hia
        by_cases hl : i < l.length
        · simp [hat, hl, List.getElem?_set_self, List.mem_cons]
        · have hset : l.set i (f i) = l := List.set_eq_of_length_le (by omega)
          simp [hat, hl, hset, List.mem_cons]
      · have hne : (l.set a (f a))[i]? = l[i]? :=
          List.getElem?_set_ne (fun h => hia h.symm)
        simp [hat, hia, hne, List.mem_cons]

/-! ### Membership in the modelled set operations -/

theorem mem_pyInsert {l : List Nat} {i k : Nat} : k ∈ pyInsert l i ↔ k = i ∨ k ∈ l := by
  unfold pyInsert
  split
  · rename_i h
    constructor
    · exact Or.inr
    · rintro (rfl | hk)
      · exact h
      · exact hk
  · simp [List.concat_eq_append, or_comm]

theorem mem_pyDiscard {l : List Nat} {i k : Nat} : k ∈ pyDiscard l i ↔ k ∈ l ∧ k ≠ i := by
  simp [pyDiscard]

theorem nodup_pyInsert {l : List Nat} (h : l.Nodup) (i : Nat) : (pyInsert l i).Nodup := by
  unfold pyInsert
  split
  · exact h
  · rename_i hni
    simpa [List.concat_eq_append, List.nodup_append] using ⟨h, hni⟩

theorem nodup_pyDiscard {l : List Nat} (h : l.Nodup) (i : Nat) : (pyDiscard l i).Nodup :=
  h.filter _

/-! ### `updatePortDisplay` preserves the bookkeeping fields -/

@[simp] theorem updatePortDisplay_active (cfg : Config) (s : DState) :
    (updatePortDisplay cfg s).activeInputCount = s.activeInputCount := rfl

@[simp] theorem updatePortDisplay_spare (cfg : Config) (s : DState) :
    (updatePortDisplay cfg s).spareInputIndex = s.spareInputIndex := rfl

@[simp] theorem updatePortDisplay_conn (cfg : Config) (s : DState) :
    (updatePortDisplay cfg s).connectedInputs = s.connectedInputs := rfl

@[simp] theorem updatePortDisplay_disc (cfg : Config) (s : DState) :
    (updatePortDisplay cfg s).disconnectedInputs = s.disconnectedInputs := rfl

theorem get_visual_port_ordering_congr {cfg : Config} {s₁ s₂ : DState}
    (hc : s₁.connectedInputs = s₂.connectedInputs)
    (hd : s₁.disconnectedInputs = s₂.disconnectedInputs)
    (hsp : s₁.spareInputIndex = s₂.spareInputIndex) :
    get_visual_port_ordering cfg s₁ = get_visual_port_ordering cfg s₂ := by
  simp only [get_visual_port_ordering, hc, hd, hsp]

theorem dynVisual_congr {cfg : Config} {s₁ s₂ : DState}
    (hc : s₁.connectedInputs = s₂.connectedInputs)
    (hd : s₁.disconnectedInputs = s₂.disconnectedInputs)
    (hsp : s₁.spareInputIndex = s₂.spareInputIndex) :
    dynVisual cfg s₁ = dynVisual cfg s₂ := by
  simp only [dynVisual, get_visual_port_ordering_congr hc hd hsp]

theorem dynVisual_updatePortDisplay (cfg : Config) (s : DState) :
    dynVisual cfg (updatePortDisplay cfg s) = dynVisual cfg s :=
  dynVisual_congr rfl rfl rfl

/-! ### Pointwise characterization of the display pass -/

theorem updatePortDisplay_portVisible (cfg : Config) (s : DState) (i : Nat)
    (hlen : s.portVisible.length = cfg.maxInputs) :
    (updatePortDisplay cfg s).portVisible[i]? =
      if i < cfg.maxInputs then
        some (decide (i ∈ dynVisual cfg s ∨ i ∈ cfg.staticPorts))
      else none := by
  show (writeAll (writeAll (writeAll _ _ _) _ _) _ _)[i]? = _
  rw [writeAll_getElem?, writeAll_length, writeAll_length, writeAll_getElem?,
    writeAll_length, writeAll_getElem?, hlen]
  by_cases hdv : i ∈ dynVisual cfg s <;> by_cases hst : i ∈ cfg.staticPorts <;>
    by_cases hlt : i < cfg.maxInputs <;>
    simp [hdv, hst, hlt, List.getElem?_eq_none, hlen, Nat.le_of_not_lt]

theorem updatePortDisplay_portCaptionVisible (cfg : Config) (s : DState) (i : Nat)
    (hlen : s.portCaptionVisible.length = cfg.maxInputs) :
    (updatePortDisplay cfg s).portCaptionVisible[i]? =
      if i < cfg.maxInputs then
        some (decide (i ∈ dynVisual cfg s ∨ i ∈ cfg.staticPorts))
      else none := by
  show (writeAll (writeAll (writeAll _ _ _) _ _) _ _)[i]? = _
  rw [writeAll_getElem?, writeAll_length, writeAll_length, writeAll_getElem?,
    writeAll_length, writeAll_getElem?, hlen]
  by_cases hdv : i ∈ dynVisual cfg s <;> by_cases hst : i ∈ cfg.staticPorts <;>
    by_cases hlt : i < cfg.maxInputs <;>
    simp [hdv, hst, hlt, List.getElem?_eq_none, hlen, Nat.le_of_not_lt]

theorem updatePortDisplay_portCaption (cfg : Config) (s : DState) (i : Nat)
    (hlen : s.portCaption.length = cfg.maxInputs) :
    (updatePortDisplay cfg s).portCaption[i]? =
      if i < cfg.maxInputs then
        some (if i ∈ dynVisual cfg s then
                (if (i : Int) = s.spareInputIndex ∧ 0 ≤ s.spareInputIndex then
                  "Connect here" else origCaptionGet cfg i)
              else if i ∈ cfg.staticPorts then origCaptionGet cfg i
              else "")
      else none := by
  show (writeAll (writeAll (writeAll _ _ _) _ _) _ _)[i]? = _
  rw [writeAll_getElem?, writeAll_length, writeAll_length, writeAll_getElem?,
    writeAll_length, writeAll_getElem?, hlen]
  by_cases hdv : i ∈ dynVisual cfg s <;> by_cases hst : i ∈ cfg.staticPorts <;>
    by_cases hlt : i < cfg.maxInputs <;>
    simp [hdv, hst, hlt, List.getElem?_eq_none, hlen, Nat.le_of_not_lt]

/-! ### The spare re-assignment scan -/

theorem spareScan_spec (cfg : Config) (conn disc : List Nat) :
    (spareScan cfg conn disc = -1 ∧ ∀ k ∈ cfg.dynamicPorts, k ∈ conn ∨ k ∈ disc) ∨
    (∃ j : Nat, spareScan cfg conn disc = (j : Int) ∧ j ∈ cfg.dynamicPorts ∧
      j ∉ conn ∧ j ∉ disc) := by
  unfold spareScan
  cases hfind : cfg.dynamicPorts.find? (fun j => decide (j ∉ conn ∧ j ∉ disc)) with
  | none =>
    left
    refine ⟨rfl, fun k hk => ?_⟩
    have hnot := List.find?_eq_none.mp hfind k hk
    simp only [decide_eq_true_eq, not_and, not_not] at hnot
    by_cases hc : k ∈ conn
    · exact Or.inl hc
    · exact Or.inr (hnot hc)
  | some j =>
    right
    have h1 := List.find?_some hfind
    have h2 := List.mem_of_find?_eq_some hfind
    simp only [decide_eq_true_eq] at h1
    exact ⟨j, rfl, h2, h1.1, h1.2⟩

theorem find?_sorted_least {l : List Nat} (hs : l.Sorted (· < ·)) {p : Nat → Bool}
    {j : Nat} (h : l.find? p = some j) : ∀ k ∈ l, p k = true → j ≤ k := by
  induction l with
  | nil => simp at h
  | cons a t ih =>
    rw [List.sorted_cons] at hs
    intro k hk hpk
    cases hpa : p a with
    | true =>
      rw [List.find?_cons_of_pos _ hpa] at h
      obtain rfl : a = j := by injection h
      rcases List.mem_cons.mp hk with rfl | hkt
      · exact Nat.le_refl _
      · exact Nat.le_of_lt (hs.1 k hkt)
    | false =>
      rw [List.find?_cons_of_neg _ (by simp [hpa])] at h
      rcases List.mem_cons.mp hk with rfl | hkt
      · rw [hpa] at hpk; cases hpk
      · exact ih hs.2 h k hkt hpk

theorem spareScan_least {cfg : Config} (hs : cfg.dynamicPorts.Sorted (· < ·))
    {conn disc : List Nat} {j : Nat} (h : spareScan cfg conn disc = (j : Int)) :
    ∀ k ∈ cfg.dynamicPorts, k ∉ conn → k ∉ disc → j ≤ k := by
  intro k hk hkc hkd
  cases hfind : cfg.dynamicPorts.find? (fun j => decide (j ∉ conn ∧ j ∉ disc)) with
  | none =>
    exfalso
    have hneg : spareScan cfg conn disc = -1 := by unfold spareScan; rw [hfind]
    rw [hneg] at h
    omega
  | some j' =>
    have hpos : spareScan cfg conn disc = (j' : Int) := by unfold spareScan; rw [hfind]
    rw [hpos] at h
    obtain rfl : j' = j := by omega
    exact find?_sorted_least hs hfind k hk (by simp [hkc, hkd])

/-! ### Preservation of the invariant -/

theorem inv_updatePortDisplay {cfg : Config} {s : DState} (h : Inv cfg s) :
    Inv cfg (updatePortDisplay cfg s) :=
  ⟨h.spare_not_conn, h.spare_not_disc, h.conn_disc, h.spare_dyn⟩

theorem inv_initState (cfg : Config) : Inv cfg (initState cfg) := by
  refine inv_updatePortDisplay ⟨?_, ?_, ?_, ?_⟩ <;> simp only []
  · intro i _; simp
  · intro i _; simp
  · intro i h; simp at h
  · cases hmin : cfg.dynamicPorts.min? with
    | none => intro hcontra; simp [hmin] at hcontra
    | some m =>
      intro _
      simp only [hmin, Int.toNat_natCast]
      exact List.min?_mem (fun a b => min_choice a b) hmin

theorem inv_created {cfg : Config} {s : DState} (h : Inv cfg s) (i : Nat) :
    Inv cfg (input_connection_created cfg s i).1 := by
  unfold input_connection_created
  split
  · exact h
  split
  · exact h
  split
  · exact h
  split
  · -- reconnect of a disconnected port
    rename_i hdisc
    refine inv_updatePortDisplay ⟨?_, ?_, ?_, ?_⟩ <;> simp only []
    · intro k hk
      rw [mem_pyInsert]
      rintro (rfl | hkc)
      · exact h.spare_not_disc k hk hdisc
      · exact h.spare_not_conn k hk hkc
    · intro k hk hkd
      exact h.spare_not_disc k hk (mem_pyDiscard.mp hkd).1
    · intro k hk
      rw [mem_pyInsert] at hk
      rcases hk with rfl | hkc
      · simp [mem_pyDiscard]
      · intro hkd
        exact h.conn_disc k hkc (mem_pyDiscard.mp hkd).1
    · exact h.spare_dyn
  split
  · -- activation of the spare port
    rename_i hndisc hspare
    refine inv_updatePortDisplay ⟨?_, ?_, ?_, ?_⟩ <;> simp only [] <;>
      rcases spareScan_spec cfg (pyInsert s.connectedInputs i) s.disconnectedInputs with
        ⟨hsc, _⟩ | ⟨j, hsc, _, hjc, hjd⟩
    · intro k hk; rw [hsc] at hk; omega
    · intro k hk
      rw [hsc] at hk
      obtain rfl : k = j := by omega
      exact fun hkc => hjc hkc
    · intro k hk; rw [hsc] at hk; omega
    · intro k hk
      rw [hsc] at hk
      obtain rfl : k = j := by omega
      exact fun hkd => hjd hkd
    · intro k hk
      rw [mem_pyInsert] at hk
      rcases hk with rfl | hkc
      · exact hndisc
      · exact h.conn_disc k hkc
    · intro k hk
      rw [mem_pyInsert] at hk
      rcases hk with rfl | hkc
      · exact hndisc
      · exact h.conn_disc k hkc
    · rw [hsc]; intro hc; omega
    · rw [hsc]; intro _; simpa using ‹j ∈ cfg.dynamicPorts›
  · exact h

theorem inv_deleted {cfg : Config} {s : DState} (h : Inv cfg s) (i : Nat) :
    Inv cfg (input_connection_deleted cfg s i) := by
  unfold input_connection_deleted
  split
  · exact h
  split
  · exact h
  split
  · -- disconnect of a connected port
    rename_i hconn
    have hispare : (i : Int) ≠ s.spareInputIndex := fun he => h.spare_not_conn i he hconn
    split
    · -- tail disconnect: the spare is re-scanned
      refine inv_updatePortDisplay ⟨?_, ?_, ?_, ?_⟩ <;> simp only [] <;>
        rcases spareScan_spec cfg (pyDiscard s.connectedInputs i)
            (pyInsert s.disconnectedInputs i) with
          ⟨hsc, _⟩ | ⟨j, hsc, _, hjc, hjd⟩
      · intro k hk; rw [hsc] at hk; omega
      · intro k hk
        rw [hsc] at hk
        obtain rfl : k = j := by omega
        exact fun hkc => hjc hkc
      · intro k hk; rw [hsc] at hk; omega
      · intro k hk
        rw [hsc] at hk
        obtain rfl : k = j := by omega
        exact fun hkd => hjd hkd
      · intro k hk
        have hki : k ≠ i := (mem_pyDiscard.mp hk).2
        rw [mem_pyInsert]
        push_neg
        exact ⟨hki, h.conn_disc k (mem_pyDiscard.mp hk).1⟩
      · intro k hk
        have hki : k ≠ i := (mem_pyDiscard.mp hk).2
        rw [mem_pyInsert]
        push_neg
        exact ⟨hki, h.conn_disc k (mem_pyDiscard.mp hk).1⟩
      · rw [hsc]; intro hc; omega
      · rw [hsc]; intro _; simpa using ‹j ∈ cfg.dynamicPorts›
    · -- non-tail disconnect: spare and counter untouched
      refine inv_updatePortDisplay ⟨?_, ?_, ?_, ?_⟩ <;> simp only []
      · intro k hk hkc
        exact h.spare_not_conn k hk (mem_pyDiscard.mp hkc).1
      · intro k hk
        rw [mem_pyInsert]
        push_neg
        exact ⟨fun he => hispare (he ▸ hk), h.spare_not_disc k hk⟩
      · intro k hk
        have hki : k ≠ i := (mem_pyDiscard.mp hk).2
        rw [mem_pyInsert]
        push_neg
        exact ⟨hki, h.conn_disc k (mem_pyDiscard.mp hk).1⟩
      · exact h.spare_dyn
  split
  · -- defensive branch: disconnect of the (unconnected) spare port
    refine inv_updatePortDisplay ⟨?_, ?_, ?_, ?_⟩ <;> simp only [] <;>
      rcases spareScan_spec cfg s.connectedInputs (pyInsert s.disconnectedInputs i) with
        ⟨hsc, _⟩ | ⟨j, hsc, _, hjc, hjd⟩
    · intro k hk; rw [hsc] at hk; omega
    · intro k hk
      rw [hsc] at hk
      obtain rfl : k = j := by omega
      exact fun hkc => hjc hkc
    · intro k hk; rw [hsc] at hk; omega
    · intro k hk
      rw [hsc] at hk
      obtain rfl : k = j := by omega
      exact fun hkd => hjd hkd
    · have hnconn : i ∉ s.connectedInputs := by assumption
      intro k hkc
      rw [mem_pyInsert]
      push_neg
      refine ⟨fun he => hnconn (he ▸ hkc), h.conn_disc k hkc⟩
    · have hnconn : i ∉ s.connectedInputs := by assumption
      intro k hkc
      rw [mem_pyInsert]
      push_neg
      refine ⟨fun he => hnconn (he ▸ hkc), h.conn_disc k hkc⟩
    · rw [hsc]; intro hc; omega
    · rw [hsc]; intro _; simpa using ‹j ∈ cfg.dynamicPorts›
  · exact h

theorem inv_applyEvent {cfg : Config} {s : DState} (h : Inv cfg s) (e : Event) :
    Inv cfg (applyEvent cfg s e) := by
  cases e with
  | created i => exact inv_created h i
  | deleted i => exact inv_deleted h i

theorem inv_runEvents {cfg : Config} {s : DState} (h : Inv cfg s) (es : List Event) :
    Inv cfg (runEvents cfg s es) := by
  induction es generalizing s with
  | nil => exact h
  | cons e t ih => exact ih (inv_applyEvent h e)

theorem inv_reachable {cfg : Config} {s : DState} (h : Reachable cfg s) : Inv cfg s := by
  obtain ⟨es, rfl⟩ := h
  exact inv_runEvents (inv_initState cfg) es

/-! ### Every exposed state is the image of a display refresh -/

theorem created_cases (cfg : Config) (s : DState) (i : Nat) :
    (input_connection_created cfg s i).1 = s ∨
    ∃ s', (input_connection_created cfg s i).1 = updatePortDisplay cfg s' ∧
      s'.portVisible = s.portVisible ∧ s'.portCaption = s.portCaption ∧
      s'.portCaptionVisible = s.portCaptionVisible := by
  unfold input_connection_created
  split
  · exact Or.inl rfl
  split
  · exact Or.inl rfl
  split
  · exact Or.inl rfl
  split
  · exact Or.inr ⟨_, rfl, rfl, rfl, rfl⟩
  split
  · exact Or.inr ⟨_, rfl, rfl, rfl, rfl⟩
  · exact Or.inl rfl

theorem deleted_cases (cfg : Config) (s : DState) (i : Nat) :
    input_connection_deleted cfg s i = s ∨
    ∃ s', input_connection_deleted cfg s i = updatePortDisplay cfg s' ∧
      s'.portVisible = s.portVisible ∧ s'.portCaption = s.portCaption ∧
      s'.portCaptionVisible = s.portCaptionVisible := by
  unfold input_connection_deleted
  split
  · exact Or.inl rfl
  split
  · exact Or.inl rfl
  split
  · split
    · exact Or.inr ⟨_, rfl, rfl, rfl, rfl⟩
    · exact Or.inr ⟨_, rfl, rfl, rfl, rfl⟩
  split
  · exact Or.inr ⟨_, rfl, rfl, rfl, rfl⟩
  · exact Or.inl rfl

theorem goodLengths_updatePortDisplay {cfg : Config} {s : DState}
    (h : GoodLengths cfg s) : GoodLengths cfg (updatePortDisplay cfg s) := by
  obtain ⟨h1, h2, h3⟩ := h
  refine ⟨?_, ?_, ?_⟩ <;>
    simp only [updatePortDisplay, writeAll_length] <;> assumption

theorem displayImage_applyEvent {cfg : Config} {s : DState}
    (h : DisplayImage cfg s) (e : Event) : DisplayImage cfg (applyEvent cfg s e) := by
  have key : ∀ t : DState, applyEvent cfg s e = t →
      (t = s ∨ ∃ s', t = updatePortDisplay cfg s' ∧
        s'.portVisible = s.portVisible ∧ s'.portCaption = s.portCaption ∧
        s'.portCaptionVisible = s.portCaptionVisible) := by
    intro t ht
    cases e with
    | created i => rw [← ht]; exact created_cases cfg s i
    | deleted i => rw [← ht]; exact deleted_cases cfg s i
  rcases key _ rfl with heq | ⟨s', heq, hv, hc, hcv⟩
  · rw [heq]; exact h
  · rw [heq]
    have hgl : GoodLengths cfg s' := by
      obtain ⟨⟨g1, g2, g3⟩, -⟩ := h
      exact ⟨hv ▸ g1, hc ▸ g2, hcv ▸ g3⟩
    exact ⟨goodLengths_updatePortDisplay hgl, s', hgl, rfl⟩

theorem displayImage_runEvents {cfg : Config} {s : DState}
    (h : DisplayImage cfg s) (es : List Event) :
    DisplayImage cfg (runEvents cfg s es) := by
  induction es generalizing s with
  | nil => exact h
  | cons e t ih => exact ih (displayImage_applyEvent h e)

theorem displayImage_initState (cfg : Config) : DisplayImage cfg (initState cfg) := by
  have hgl : GoodLengths cfg
      { activeInputCount := 0
        spareInputIndex :=
          match cfg.dynamicPorts.min? with
          | some m => (m : Int)
          | none => -1
        connectedInputs := ∅
        disconnectedInputs := ∅
        portVisible := List.replicate cfg.maxInputs false
        portCaption := List.replicate cfg.maxInputs ""
        portCaptionVisible := List.replicate cfg.maxInputs false } := by
    refine ⟨?_, ?_, ?_⟩ <;> simp
  exact ⟨goodLengths_updatePortDisplay hgl, _, hgl, rfl⟩

theorem displayImage_reachable {cfg : Config} {s : DState} (h : Reachable cfg s) :
    DisplayImage cfg s := by
  obtain ⟨es, rfl⟩ := h
  exact displayImage_runEvents (displayImage_initState cfg) es

/-! ### The display dictionaries of a reachable state, pointwise -/

theorem reachable_portVisible {cfg : Config} {s : DState} (h : Reachable cfg s)
    (i : Nat) :
    s.portVisible[i]? =
      if i < cfg.maxInputs then
        some (decide (i ∈ dynVisual cfg s ∨ i ∈ cfg.staticPorts))
      else none := by
  obtain ⟨-, s₀, hgl, rfl⟩ := displayImage_reachable h
  rw [show (updatePortDisplay cfg s₀).portVisible[i]? =
      (updatePortDisplay cfg s₀).portVisible[i]? from rfl,
    updatePortDisplay_portVisible cfg s₀ i hgl.1, dynVisual_updatePortDisplay]

theorem reachable_portCaption {cfg : Config} {s : DState} (h : Reachable cfg s)
    (i : Nat) :
    s.portCaption[i]? =
      if i < cfg.maxInputs then
        some (if i ∈ dynVisual cfg s then
                (if (i : Int) = s.spareInputIndex ∧ 0 ≤ s.spareInputIndex then
                  "Connect here" else origCaptionGet cfg i)
              else if i ∈ cfg.staticPorts then origCaptionGet cfg i
              else "")
      else none := by
  obtain ⟨-, s₀, hgl, rfl⟩ := displayImage_reachable h
  rw [updatePortDisplay_portCaption cfg s₀ i hgl.2.1, dynVisual_updatePortDisplay,
    updatePortDisplay_spare]

theorem reachable_goodLengths {cfg : Config} {s : DState} (h : Reachable cfg s) :
    GoodLengths cfg s :=
  (displayImage_reachable h).1

/-! ### Misc characterizations -/

theorem is_dynamic_port_iff {cfg : Config} {i : Nat} :
    is_dynamic_port cfg i = true ↔ i ∈ cfg.dynamicPorts := by
  unfold is_dynamic_port
  cases hl : cfg.dynamicPorts with
  | nil => simp
  | cons a t => simp

theorem is_static_port_iff {cfg : Config} {i : Nat} :
    is_static_port cfg i = true ↔ i ∈ cfg.staticPorts := by
  unfold is_static_port
  cases hl : cfg.staticPorts with
  | nil => simp
  | cons a t => simp

theorem can_connect_to_port_eq_getElem? (s : DState) (i : Nat) :
    can_connect_to_port s i = (s.portVisible[i]?).getD true := by
  simp [can_connect_to_port, List.getD]

theorem mem_pySorted {l : List Nat} {k : Nat} : k ∈ pySorted l ↔ k ∈ l :=
  (List.perm_insertionSort _ l).mem_iff

theorem pySorted_nil : pySorted [] = [] := rfl

theorem mem_dynVisual {cfg : Config} {s : DState} {k : Nat} :
    k ∈ dynVisual cfg s ↔
      k ∈ get_visual_port_ordering cfg s ∧ is_dynamic_port cfg k = true := by
  simp [dynVisual, List.mem_filter]

theorem mem_part1 {cfg : Config} {k : Nat}
    (h : k ∈ (if cfg.staticPorts.isEmpty then ([] : List Nat)
      else pySorted cfg.staticPorts)) : k ∈ cfg.staticPorts := by
  by_cases hst : cfg.staticPorts.isEmpty
  · rw [if_pos hst] at h
    cases h
  · rw [if_neg hst] at h
    exact mem_pySorted.mp h

theorem mem_visual_ordering_part {cfg : Config} {s : DState} {k : Nat}
    (h : k ∈ get_visual_port_ordering cfg s) :
    k ∈ cfg.staticPorts ∨ k ∈ cfg.dynamicPorts := by
  unfold get_visual_port_ordering at h
  by_cases hdn : cfg.dynamicPorts.isEmpty
  · rw [if_pos hdn] at h
    exact Or.inl (mem_part1 h)
  · rw [if_neg hdn, List.mem_append, List.mem_append, List.mem_append] at h
    rcases h with ((hp | hc) | hsp) | hd
    · exact Or.inl (mem_part1 hp)
    · have hm := mem_pySorted.mp hc
      rw [List.mem_filter] at hm
      exact Or.inr (by simpa using hm.2)
    · rcases hguard : decide (0 ≤ s.spareInputIndex ∧
          s.spareInputIndex.toNat ∈ cfg.dynamicPorts) with hfalse | htrue
      · rw [if_neg (by simpa using hguard)] at hsp
        cases hsp
      · have hg := of_decide_eq_true hguard
        rw [if_pos hg] at hsp
        rcases List.mem_singleton.mp hsp with rfl
        exact Or.inr hg.2
    · have hm := mem_pySorted.mp hd
      rw [List.mem_filter] at hm
      exact Or.inr (by simpa using hm.2)

theorem spare_mem_visual_ordering {cfg : Config} {s : DState}
    (hge : 0 ≤ s.spareInputIndex) (hmem : s.spareInputIndex.toNat ∈ cfg.dynamicPorts) :
    s.spareInputIndex.toNat ∈ get_visual_port_ordering cfg s := by
  have hdn : cfg.dynamicPorts.isEmpty = false := by
    cases hl : cfg.dynamicPorts with
    | nil => rw [hl] at hmem; cases hmem
    | cons a t => rfl
  unfold get_visual_port_ordering
  simp only [hdn, Bool.false_eq_true, if_false, List.mem_append]
  left; right
  simp [hge, hmem]

theorem sorted_filtered_eq_of_mem_eq {la lb : List Nat} (h1 : la.Nodup)
    (h2 : lb.Nodup) (hm : ∀ a, a ∈ la ↔ a ∈ lb) :
    pySorted la = pySorted lb := by
  have hp : List.Perm la lb := by
    apply List.perm_of_nodup_nodup_toFinset_eq h1 h2
    ext a
    simp [hm a]
  exact List.eq_of_perm_of_sorted
    ((List.perm_insertionSort _ la).trans (hp.trans (List.perm_insertionSort _ lb).symm))
    (List.sorted_insertionSort _ la) (List.sorted_insertionSort _ lb)

/-! ### Nodup sets along reachability -/

theorem nodupSets_updatePortDisplay {cfg : Config} {s : DState} (h : NodupSets s) :
    NodupSets (updatePortDisplay cfg s) := h

theorem nodupSets_created {cfg : Config} {s : DState} (h : NodupSets s) (i : Nat) :
    NodupSets (input_connection_created cfg s i).1 := by
  unfold input_connection_created
  split
  · exact h
  split
  · exact h
  split
  · exact h
  split
  · exact nodupSets_updatePortDisplay ⟨nodup_pyInsert h.1 i, nodup_pyDiscard h.2 i⟩
  split
  · exact nodupSets_updatePortDisplay ⟨nodup_pyInsert h.1 i, h.2⟩
  · exact h

theorem nodupSets_deleted {cfg : Config} {s : DState} (h : NodupSets s) (i : Nat) :
    NodupSets (input_connection_deleted cfg s i) := by
  unfold input_connection_deleted
  split
  · exact h
  split
  · exact h
  split
  · split
    · exact nodupSets_updatePortDisplay ⟨nodup_pyDiscard h.1 i, nodup_pyInsert h.2 i⟩
    · exact nodupSets_updatePortDisplay ⟨nodup_pyDiscard h.1 i, nodup_pyInsert h.2 i⟩
  split
  · exact nodupSets_updatePortDisplay ⟨h.1, nodup_pyInsert h.2 i⟩
  · exact h

theorem nodupSets_reachable {cfg : Config} {s : DState} (h : Reachable cfg s) :
    NodupSets s := by
  obtain ⟨es, rfl⟩ := h
  have base : NodupSets (initState cfg) :=
    nodupSets_updatePortDisplay ⟨List.nodup_nil, List.nodup_nil⟩
  generalize initState cfg = t at base ⊢
  induction es generalizing t with
  | nil => exact base
  | cons e r ih =>
    refine ih _ ?_
    cases e with
    | created i => exact nodupSets_created base i
    | deleted i => exact nodupSets_deleted base i

/-! ### The code's visual ordering matches the spec's description -/

theorem visual_ordering_eq_spec {cfg : Config} {s : DState} (hinv : Inv cfg s) :
    get_visual_port_ordering cfg s = specVisualOrdering cfg s := by
  unfold get_visual_port_ordering specVisualOrdering
  by_cases hdn : cfg.dynamicPorts.isEmpty
  · have hdl : cfg.dynamicPorts = [] := List.isEmpty_iff.mp hdn
    have hsp : ¬ (0 ≤ s.spareInputIndex) := by
      intro hge
      have := hinv.spare_dyn hge
      rw [hdl] at this
      cases this
    simp only [hdn, if_true, hdl]
    rw [if_neg hsp]
    by_cases hst : cfg.staticPorts.isEmpty
    · rw [if_pos hst, List.isEmpty_iff.mp hst]
      simp [pySorted_nil]
    · rw [if_neg hst]
      simp [pySorted_nil, List.filter_eq_nil_iff]
  · simp only [hdn, Bool.false_eq_true, if_false]
    have hpart1 : (if cfg.staticPorts.isEmpty then ([] : List Nat)
        else pySorted cfg.staticPorts) = pySorted cfg.staticPorts := by
      by_cases hst : cfg.staticPorts.isEmpty
      · rw [if_pos hst, List.isEmpty_iff.mp hst, pySorted_nil]
      · rw [if_neg hst]
    rw [hpart1]
    congr 2
    by_cases hge : 0 ≤ s.spareInputIndex
    · rw [if_pos ⟨hge, hinv.spare_dyn hge⟩, if_pos hge]
    · rw [if_neg (by tauto), if_neg hge]

/-! ### Branch lemmas for the two events -/

theorem created_invisible_eq {cfg : Config} {s : DState} {i : Nat}
    (hstat : is_static_port cfg i = false)
    (hdyn : is_dynamic_port cfg i = true)
    (hvis : can_connect_to_port s i = false) :
    input_connection_created cfg s i = (s, true) := by
  unfold input_connection_created
  rw [hstat, hdyn, hvis]
  simp

theorem created_disconnected_eq {cfg : Config} {s : DState} {i : Nat}
    (hstat : is_static_port cfg i = false)
    (hdyn : is_dynamic_port cfg i = true)
    (hvis : can_connect_to_port s i = true)
    (hd : i ∈ s.disconnectedInputs) :
    input_connection_created cfg s i =
      (updatePortDisplay cfg
        { s with
          disconnectedInputs := pyDiscard s.disconnectedInputs i
          connectedInputs := pyInsert s.connectedInputs i }, false) := by
  unfold input_connection_created
  rw [hstat, hdyn, hvis]
  simp [hd]

theorem created_spare_eq {cfg : Config} {s : DState} {i : Nat}
    (hstat : is_static_port cfg i = false)
    (hdyn : is_dynamic_port cfg i = true)
    (hvis : can_connect_to_port s i = true)
    (hnd : i ∉ s.disconnectedInputs)
    (hsp : (i : Int) = s.spareInputIndex) :
    input_connection_created cfg s i =
      (updatePortDisplay cfg
        { s with
          connectedInputs := pyInsert s.connectedInputs i
          activeInputCount := s.activeInputCount + 1
          spareInputIndex :=
            spareScan cfg (pyInsert s.connectedInputs i) s.disconnectedInputs },
        false) := by
  unfold input_connection_created
  rw [hstat, hdyn, hvis]
  simp [hnd, hsp]

theorem deleted_conn_nontail_eq {cfg : Config} {s : DState} {i : Nat}
    (hstat : is_static_port cfg i = false)
    (hdyn : is_dynamic_port cfg i = true)
    (hconn : i ∈ s.connectedInputs)
    (htail : (i : Int) ≠ s.activeInputCount - 1) :
    input_connection_deleted cfg s i =
      updatePortDisplay cfg
        { s with
          connectedInputs := pyDiscard s.connectedInputs i
          disconnectedInputs := pyInsert s.disconnectedInputs i } := by
  unfold input_connection_deleted
  rw [hstat, hdyn]
  simp [hconn, htail]

theorem reachable_portCaptionVisible {cfg : Config} {s : DState}
    (h : Reachable cfg s) (i : Nat) :
    s.portCaptionVisible[i]? =
      if i < cfg.maxInputs then
        some (decide (i ∈ dynVisual cfg s ∨ i ∈ cfg.staticPorts))
      else none := by
  obtain ⟨-, s₀, hgl, rfl⟩ := displayImage_reachable h
  rw [updatePortDisplay_portCaptionVisible cfg s₀ i hgl.2.2, dynVisual_updatePortDisplay]

theorem visual_ordering_congr_full {cfg₁ cfg₂ : Config} {s₁ s₂ : DState}
    (hst : cfg₁.staticPorts = cfg₂.staticPorts)
    (hdy : cfg₁.dynamicPorts = cfg₂.dynamicPorts)
    (hc : s₁.connectedInputs = s₂.connectedInputs)
    (hd : s₁.disconnectedInputs = s₂.disconnectedInputs)
    (hsp : s₁.spareInputIndex = s₂.spareInputIndex) :
    get_visual_port_ordering cfg₁ s₁ = get_visual_port_ordering cfg₂ s₂ := by
  simp only [get_visual_port_ordering, hst, hdy, hc, hd, hsp]

theorem is_spare_port_iff {s : DState} {i : Nat} :
    is_spare_port s i = true ↔ (i : Int) = s.spareInputIndex := by
  simp [is_spare_port]

/-! ## The claims -/

/-- C1: in every state reachable from construction by
connection-created/connection-removed events, at most one index is the
spare, the spare is in neither the connected nor the disconnected set,
those two sets are disjoint, and consequently every dynamic slot is in
exactly one of the four states spare / connected / disconnected /
hidden. -/
theorem C1_lifecycle_invariant (cfg : Config) (s : DState) (h : Reachable cfg s) :
    (∀ i j : Nat, is_spare_port s i = true → is_spare_port s j = true → i = j) ∧
    (∀ i : Nat, is_spare_port s i = true →
      is_connected_port s i = false ∧ is_disconnected_port s i = false) ∧
    (∀ i : Nat, ¬ (is_connected_port s i = true ∧ is_disconnected_port s i = true)) ∧
    (∀ i : Nat, is_dynamic_port cfg i = true →
      (is_spare_port s i = true ∧ is_connected_port s i = false ∧
        is_disconnected_port s i = false ∧ hiddenSlot cfg s i = false) ∨
      (is_spare_port s i = false ∧ is_connected_port s i = true ∧
        is_disconnected_port s i = false ∧ hiddenSlot cfg s i = false) ∨
      (is_spare_port s i = false ∧ is_connected_port s i = false ∧
        is_disconnected_port s i = true ∧ hiddenSlot cfg s i = false) ∨
      (is_spare_port s i = false ∧ is_connected_port s i = false ∧
        is_disconnected_port s i = false ∧ hiddenSlot cfg s i = true)) := by
  have hinv := inv_reachable h
  refine ⟨?_, ?_, ?_, ?_⟩
  · intro i j hi hj
    rw [is_spare_port_iff] at hi hj
    omega
  · intro i hi
    rw [is_spare_port_iff] at hi
    constructor
    · simpa [is_connected_port] using hinv.spare_not_conn i hi
    · simpa [is_disconnected_port] using hinv.spare_not_disc i hi
  · intro i hcd
    rw [show is_connected_port s i = decide (i ∈ s.connectedInputs) from rfl,
      show is_disconnected_port s i = decide (i ∈ s.disconnectedInputs) from rfl] at hcd
    simp only [decide_eq_true_eq] at hcd
    exact hinv.conn_disc i hcd.1 hcd.2
  · intro i hdyn
    by_cases hsp : (i : Int) = s.spareInputIndex
    · left
      have hc := hinv.spare_not_conn i hsp
      have hd := hinv.spare_not_disc i hsp
      simp [is_spare_port, is_connected_port, is_disconnected_port, hiddenSlot, hsp,
        hc, hd]
    · by_cases hc : i ∈ s.connectedInputs
      · right; left
        have hd := hinv.conn_disc i hc
        simp [is_spare_port, is_connected_port, is_disconnected_port, hiddenSlot, hsp,
          hc, hd]
      · by_cases hd : i ∈ s.disconnectedInputs
        · right; right; left
          simp [is_spare_port, is_connected_port, is_disconnected_port, hiddenSlot,
            hsp, hc, hd]
        · right; right; right
          simp [is_spare_port, is_connected_port, is_disconnected_port, hiddenSlot,
            hsp, hc, hd, hdyn]

/-- Witness for C1 at the configuration with dynamic set `{0, 1, 2}`
after connecting slots 0 and 1 and disconnecting slot 0. -/
theorem C1_lifecycle_invariant_witness :
    (∀ i j : Nat,
        is_spare_port (runEvents cfgTriple (initState cfgTriple)
          [.created 0, .created 1, .deleted 0]) i = true →
        is_spare_port (runEvents cfgTriple (initState cfgTriple)
          [.created 0, .created 1, .deleted 0]) j = true → i = j) ∧
    (∀ i : Nat,
        is_spare_port (runEvents cfgTriple (initState cfgTriple)
          [.created 0, .created 1, .deleted 0]) i = true →
        is_connected_port (runEvents cfgTriple (initState cfgTriple)
          [.created 0, .created 1, .deleted 0]) i = false ∧
        is_disconnected_port (runEvents cfgTriple (initState cfgTriple)
          [.created 0, .created 1, .deleted 0]) i = false) ∧
    (∀ i : Nat,
        ¬ (is_connected_port (runEvents cfgTriple (initState cfgTriple)
            [.created 0, .created 1, .deleted 0]) i = true ∧
          is_disconnected_port (runEvents cfgTriple (initState cfgTriple)
            [.created 0, .created 1, .deleted 0]) i = true)) ∧
    (∀ i : Nat,
        is_dynamic_port cfgTriple i = true →
        (is_spare_port (runEvents cfgTriple (initState cfgTriple)
            [.created 0, .created 1, .deleted 0]) i = true ∧
          is_connected_port (runEvents cfgTriple (initState cfgTriple)
            [.created 0, .created 1, .deleted 0]) i = false ∧
          is_disconnected_port (runEvents cfgTriple (initState cfgTriple)
            [.created 0, .created 1, .deleted 0]) i = false ∧
          hiddenSlot cfgTriple (runEvents cfgTriple (initState cfgTriple)
            [.created 0, .created 1, .deleted 0]) i = false) ∨
        (is_spare_port (runEvents cfgTriple (initState cfgTriple)
            [.created 0, .created 1, .deleted 0]) i = false ∧
          is_connected_port (runEvents cfgTriple (initState cfgTriple)
            [.created 0, .created 1, .deleted 0]) i = true ∧
          is_disconnected_port (runEvents cfgTriple (initState cfgTriple)
            [.created 0, .created 1, .deleted 0]) i = false ∧
          hiddenSlot cfgTriple (runEvents cfgTriple (initState cfgTriple)
            [.created 0, .created 1, .deleted 0]) i = false) ∨
        (is_spare_port (runEvents cfgTriple (initState cfgTriple)
            [.created 0, .created 1, .deleted 0]) i = false ∧
          is_connected_port (runEvents cfgTriple (initState cfgTriple)
            [.created 0, .created 1, .deleted 0]) i = false ∧
          is_disconnected_port (runEvents cfgTriple (initState cfgTriple)
            [.created 0, .created 1, .deleted 0]) i = true ∧
          hiddenSlot cfgTriple (runEvents cfgTriple (initState cfgTriple)
            [.created 0, .created 1, .deleted 0]) i = false) ∨
        (is_spare_port (runEvents cfgTriple (initState cfgTriple)
            [.created 0, .created 1, .deleted 0]) i = false ∧
          is_connected_port (runEvents cfgTriple (initState cfgTriple)
            [.created 0, .created 1, .deleted 0]) i = false ∧
          is_disconnected_port (runEvents cfgTriple (initState cfgTriple)
            [.created 0, .created 1, .deleted 0]) i = false ∧
          hiddenSlot cfgTriple (runEvents cfgTriple (initState cfgTriple)
            [.created 0, .created 1, .deleted 0]) i = true)) :=
  C1_lifecycle_invariant cfgTriple _ ⟨[.created 0, .created 1, .deleted 0], rfl⟩

/-- C3: for every reachable state the visual ordering is exactly the
spec's concatenation — static indices ascending, connected dynamic
indices ascending, the spare index when one exists, disconnected
dynamic indices ascending; indices outside the static and dynamic sets
never appear; the ordering is a deterministic total function of
{static set, dynamic set, connected set, disconnected set, spare
index}; and on static `{0}`, dynamic `{1,2,3}`, connected `{1}`, spare
`2`, disconnected `{3}` it is `[0, 1, 2, 3]`. -/
theorem C3_visual_ordering (cfg : Config) (s : DState) (h : Reachable cfg s) :
    get_visual_port_ordering cfg s = specVisualOrdering cfg s ∧
    (∀ k ∈ get_visual_port_ordering cfg s, k ∈ cfg.staticPorts ∨ k ∈ cfg.dynamicPorts) ∧
    (∀ (cfg₂ : Config) (s₂ : DState), cfg₂.staticPorts = cfg.staticPorts →
      cfg₂.dynamicPorts = cfg.dynamicPorts →
      s₂.connectedInputs = s.connectedInputs →
      s₂.disconnectedInputs = s.disconnectedInputs →
      s₂.spareInputIndex = s.spareInputIndex →
      get_visual_port_ordering cfg₂ s₂ = get_visual_port_ordering cfg s) ∧
    get_visual_port_ordering cfgMixed sExample = [0, 1, 2, 3] := by
  refine ⟨visual_ordering_eq_spec (inv_reachable h),
    fun k hk => mem_visual_ordering_part hk,
    fun cfg₂ s₂ h1 h2 h3 h4 h5 => visual_ordering_congr_full h1 h2 h3 h4 h5,
    by decide⟩

/-- Witness for C3 at the mixed configuration (static `{0}`, dynamic
`{1,2,3}`) in its freshly constructed state. -/
theorem C3_visual_ordering_witness :
    get_visual_port_ordering cfgMixed (initState cfgMixed) =
      specVisualOrdering cfgMixed (initState cfgMixed) ∧
    (∀ k ∈ get_visual_port_ordering cfgMixed (initState cfgMixed),
      k ∈ cfgMixed.staticPorts ∨ k ∈ cfgMixed.dynamicPorts) ∧
    (∀ (cfg₂ : Config) (s₂ : DState),
      cfg₂.staticPorts = cfgMixed.staticPorts →
      cfg₂.dynamicPorts = cfgMixed.dynamicPorts →
      s₂.connectedInputs = (initState cfgMixed).connectedInputs →
      s₂.disconnectedInputs = (initState cfgMixed).disconnectedInputs →
      s₂.spareInputIndex = (initState cfgMixed).spareInputIndex →
      get_visual_port_ordering cfg₂ s₂ =
        get_visual_port_ordering cfgMixed (initState cfgMixed)) ∧
    get_visual_port_ordering cfgMixed sExample = [0, 1, 2, 3] :=
  C3_visual_ordering cfgMixed _ ⟨[], rfl⟩

/-- C4: saving a reachable state and restoring the record into a
freshly constructed controller with the same configuration reproduces
the connected set, the disconnected set, the spare index and
`active_input_count`, and yields the same visual ordering. -/
theorem C4_save_restore (cfg : Config) (s : DState) (h : Reachable cfg s) :
    (restore cfg (initState cfg) (save s)).connectedInputs = s.connectedInputs ∧
    (restore cfg (initState cfg) (save s)).disconnectedInputs = s.disconnectedInputs ∧
    (restore cfg (initState cfg) (save s)).spareInputIndex = s.spareInputIndex ∧
    (restore cfg (initState cfg) (save s)).activeInputCount = s.activeInputCount ∧
    get_visual_port_ordering cfg (restore cfg (initState cfg) (save s)) =
      get_visual_port_ordering cfg s := by
  have hnd := nodupSets_reachable h
  have hc : (restore cfg (initState cfg) (save s)).connectedInputs =
      s.connectedInputs := by
    show (save s).connected_inputs.dedup = s.connectedInputs
    exact hnd.1.dedup
  have hd : (restore cfg (initState cfg) (save s)).disconnectedInputs =
      s.disconnectedInputs := by
    show (save s).disconnected_inputs.dedup = s.disconnectedInputs
    exact hnd.2.dedup
  refine ⟨hc, hd, rfl, rfl, ?_⟩
  exact visual_ordering_congr_full rfl rfl hc hd rfl

/-- Witness for C4 after two connects and a disconnect on the
dynamic-`{0,1,2}` configuration. -/
theorem C4_save_restore_witness :
    (restore cfgTriple (initState cfgTriple)
        (save (runEvents cfgTriple (initState cfgTriple)
          [.created 0, .created 1, .deleted 0]))).connectedInputs =
      (runEvents cfgTriple (initState cfgTriple)
        [.created 0, .created 1, .deleted 0]).connectedInputs ∧
    (restore cfgTriple (initState cfgTriple)
        (save (runEvents cfgTriple (initState cfgTriple)
          [.created 0, .created 1, .deleted 0]))).disconnectedInputs =
      (runEvents cfgTriple (initState cfgTriple)
        [.created 0, .created 1, .deleted 0]).disconnectedInputs ∧
    (restore cfgTriple (initState cfgTriple)
        (save (runEvents cfgTriple (initState cfgTriple)
          [.created 0, .created 1, .deleted 0]))).spareInputIndex =
      (runEvents cfgTriple (initState cfgTriple)
        [.created 0, .created 1, .deleted 0]).spareInputIndex ∧
    (restore cfgTriple (initState cfgTriple)
        (save (runEvents cfgTriple (initState cfgTriple)
          [.created 0, .created 1, .deleted 0]))).activeInputCount =
      (runEvents cfgTriple (initState cfgTriple)
        [.created 0, .created 1, .deleted 0]).activeInputCount ∧
    get_visual_port_ordering cfgTriple (restore cfgTriple (initState cfgTriple)
        (save (runEvents cfgTriple (initState cfgTriple)
          [.created 0, .created 1, .deleted 0]))) =
      get_visual_port_ordering cfgTriple (runEvents cfgTriple (initState cfgTriple)
        [.created 0, .created 1, .deleted 0]) :=
  C4_save_restore cfgTriple _ ⟨[.created 0, .created 1, .deleted 0], rfl⟩

/-- C5 counterexample: with a single dynamic slot (`{0}`), connecting
and then disconnecting it does NOT return the spare to that slot with
the "Connect here" caption — the slot lands in `disconnected`, the
re-scan skips it, and the spare becomes the `-1` sentinel while the
slot keeps its original caption. -/
theorem C5_counterexample :
    ¬ ((runEvents cfgSingle (initState cfgSingle)
          [.created 0, .deleted 0]).spareInputIndex = 0 ∧
        (runEvents cfgSingle (initState cfgSingle)
          [.created 0, .deleted 0]).portCaption[0]? = some "Connect here" ∧
        (runEvents cfgSingle (initState cfgSingle)
          [.created 0, .deleted 0]).activeInputCount = 0) := by
  decide

/-- C5 as amended: with dynamic set `{0}`, connect then disconnect
moves slot 0 to the disconnected set; the spare becomes the `-1` "no
spare" sentinel (the re-scan skips disconnected slots), the slot stays
visible with its original caption rather than "Connect here", and
`active_input_count` returns to 0. -/
theorem C5_amended :
    (runEvents cfgSingle (initState cfgSingle)
        [.created 0, .deleted 0]).connectedInputs = [] ∧
    (runEvents cfgSingle (initState cfgSingle)
        [.created 0, .deleted 0]).disconnectedInputs = [0] ∧
    (runEvents cfgSingle (initState cfgSingle)
        [.created 0, .deleted 0]).spareInputIndex = -1 ∧
    (runEvents cfgSingle (initState cfgSingle)
        [.created 0, .deleted 0]).activeInputCount = 0 ∧
    (runEvents cfgSingle (initState cfgSingle)
        [.created 0, .deleted 0]).portCaption[0]? = some (defaultCaption 0) ∧
    (runEvents cfgSingle (initState cfgSingle)
        [.created 0, .deleted 0]).portVisible[0]? = some true := by
  decide

/-- C6: removing a connection from a connected dynamic slot whose
index differs from `active_input_count - 1` (a non-tail disconnect)
moves the slot to the disconnected set but leaves `active_input_count`
and the spare untouched; concretely dynamic `{0,1,2}` after connect 0,
connect 1, disconnect 0 has slot 0 disconnected, count 2, spare 2. -/
theorem C6_nontail_disconnect (cfg : Config) (s : DState) (i : Nat)
    (hstat : is_static_port cfg i = false)
    (hdyn : is_dynamic_port cfg i = true)
    (hconn : i ∈ s.connectedInputs)
    (htail : (i : Int) ≠ s.activeInputCount - 1) :
    (∀ k : Nat, k ∈ (input_connection_deleted cfg s i).connectedInputs ↔
      k ∈ s.connectedInputs ∧ k ≠ i) ∧
    (∀ k : Nat, k ∈ (input_connection_deleted cfg s i).disconnectedInputs ↔
      k = i ∨ k ∈ s.disconnectedInputs) ∧
    (input_connection_deleted cfg s i).activeInputCount = s.activeInputCount ∧
    (input_connection_deleted cfg s i).spareInputIndex = s.spareInputIndex ∧
    (runEvents cfgTriple (initState cfgTriple)
        [.created 0, .created 1, .deleted 0]).disconnectedInputs = [0] ∧
    (runEvents cfgTriple (initState cfgTriple)
        [.created 0, .created 1, .deleted 0]).connectedInputs = [1] ∧
    (runEvents cfgTriple (initState cfgTriple)
        [.created 0, .created 1, .deleted 0]).activeInputCount = 2 ∧
    (runEvents cfgTriple (initState cfgTriple)
        [.created 0, .created 1, .deleted 0]).spareInputIndex = 2 := by
  rw [deleted_conn_nontail_eq hstat hdyn hconn htail]
  refine ⟨?_, ?_, rfl, rfl, by decide, by decide, by decide, by decide⟩
  · intro k
    show k ∈ pyDiscard s.connectedInputs i ↔ _
    exact mem_pyDiscard
  · intro k
    show k ∈ pyInsert s.disconnectedInputs i ↔ _
    exact mem_pyInsert

/-- Witness for C6: disconnect slot 0 (non-tail, since the count is 2)
after connecting slots 0 and 1 of the dynamic-`{0,1,2}` controller. -/
theorem C6_nontail_disconnect_witness :
    (∀ k : Nat, k ∈ (input_connection_deleted cfgTriple
        (runEvents cfgTriple (initState cfgTriple) [.created 0, .created 1])
        0).connectedInputs ↔
      k ∈ (runEvents cfgTriple (initState cfgTriple)
        [.created 0, .created 1]).connectedInputs ∧ k ≠ 0) ∧
    (∀ k : Nat, k ∈ (input_connection_deleted cfgTriple
        (runEvents cfgTriple (initState cfgTriple) [.created 0, .created 1])
        0).disconnectedInputs ↔
      k = 0 ∨ k ∈ (runEvents cfgTriple (initState cfgTriple)
        [.created 0, .created 1]).disconnectedInputs) ∧
    (input_connection_deleted cfgTriple
        (runEvents cfgTriple (initState cfgTriple) [.created 0, .created 1])
        0).activeInputCount =
      (runEvents cfgTriple (initState cfgTriple)
        [.created 0, .created 1]).activeInputCount ∧
    (input_connection_deleted cfgTriple
        (runEvents cfgTriple (initState cfgTriple) [.created 0, .created 1])
        0).spareInputIndex =
      (runEvents cfgTriple (initState cfgTriple)
        [.created 0, .created 1]).spareInputIndex ∧
    (runEvents cfgTriple (initState cfgTriple)
        [.created 0, .created 1, .deleted 0]).disconnectedInputs = [0] ∧
    (runEvents cfgTriple (initState cfgTriple)
        [.created 0, .created 1, .deleted 0]).connectedInputs = [1] ∧
    (runEvents cfgTriple (initState cfgTriple)
        [.created 0, .created 1, .deleted 0]).activeInputCount = 2 ∧
    (runEvents cfgTriple (initState cfgTriple)
        [.created 0, .created 1, .deleted 0]).spareInputIndex = 2 :=
  C6_nontail_disconnect cfgTriple _ 0 (by decide) (by decide) (by decide) (by decide)

/-- C7: a connection-created event at a dynamic slot that is not
currently visible raises no exception and leaves the entire controller
state — connected/disconnected sets, spare, counter, captions and
visibility — unchanged, while returning the
"asynchronous forced removal scheduled" flag instead of accepting the
connection. -/
theorem C7_invisible_connection_rejected (cfg : Config) (s : DState) (i : Nat)
    (hstat : is_static_port cfg i = false)
    (hdyn : is_dynamic_port cfg i = true)
    (hvis : can_connect_to_port s i = false) :
    input_connection_created cfg s i = (s, true) :=
  created_invisible_eq hstat hdyn hvis

/-- Witness for C7: slot 1 of the freshly constructed dynamic-`{0,1}`
controller is hidden (only the spare, slot 0, is visible). -/
theorem C7_invisible_connection_rejected_witness :
    input_connection_created cfgPair (initState cfgPair) 1 =
      (initState cfgPair, true) :=
  C7_invisible_connection_rejected cfgPair (initState cfgPair) 1
    (by decide) (by decide) (by decide)

/-- C2: a connection created at a dynamic slot `i` equal to the
current spare adds `i` to the connected set, increments
`active_input_count` by one, leaves the disconnected set unchanged,
and re-assigns the spare to the smallest dynamic index in neither set
— or to the `-1` sentinel when every dynamic index is in one of the
two sets. -/
theorem C2_connect_spare (cfg : Config) (s : DState) (i : Nat)
    (hwf : cfg.Wf) (hre : Reachable cfg s)
    (hdyn : is_dynamic_port cfg i = true)
    (hsp : (i : Int) = s.spareInputIndex) :
    ∃ t : DState, input_connection_created cfg s i = (t, false) ∧
      (∀ k : Nat, k ∈ t.connectedInputs ↔ k = i ∨ k ∈ s.connectedInputs) ∧
      t.activeInputCount = s.activeInputCount + 1 ∧
      t.disconnectedInputs = s.disconnectedInputs ∧
      ((∃ j : Nat, t.spareInputIndex = (j : Int) ∧ j ∈ cfg.dynamicPorts ∧
          j ∉ t.connectedInputs ∧ j ∉ t.disconnectedInputs ∧
          ∀ k ∈ cfg.dynamicPorts, k ∉ t.connectedInputs →
            k ∉ t.disconnectedInputs → j ≤ k) ∨
        (t.spareInputIndex = -1 ∧
          ∀ k ∈ cfg.dynamicPorts, k ∈ t.connectedInputs ∨
            k ∈ t.disconnectedInputs)) := by
  have hinv := inv_reachable hre
  have hidyn : i ∈ cfg.dynamicPorts := is_dynamic_port_iff.mp hdyn
  have hstat : is_static_port cfg i = false := by
    cases hst : is_static_port cfg i with
    | false => rfl
    | true => exact absurd hidyn (hwf.disj i (is_static_port_iff.mp hst))
  have hge : 0 ≤ s.spareInputIndex := hsp ▸ Int.natCast_nonneg i
  have htn : s.spareInputIndex.toNat = i := by omega
  have hmemvo : i ∈ get_visual_port_ordering cfg s := by
    have hx := spare_mem_visual_ordering hge (by rw [htn]; exact hidyn)
    rwa [htn] at hx
  have hdv : i ∈ dynVisual cfg s := mem_dynVisual.mpr ⟨hmemvo, hdyn⟩
  have hlt : i < cfg.maxInputs := hwf.dyn_lt i hidyn
  have hvis : can_connect_to_port s i = true := by
    rw [can_connect_to_port_eq_getElem?, reachable_portVisible hre i, if_pos hlt]
    simp [hdv]
  have hnd : i ∉ s.disconnectedInputs := hinv.spare_not_disc i hsp
  rw [created_spare_eq hstat hdyn hvis hnd hsp]
  refine ⟨_, rfl, ?_, rfl, rfl, ?_⟩
  · intro k
    show k ∈ pyInsert s.connectedInputs i ↔ _
    exact mem_pyInsert
  · show (∃ j : Nat,
        spareScan cfg (pyInsert s.connectedInputs i) s.disconnectedInputs = (j : Int) ∧
        j ∈ cfg.dynamicPorts ∧ j ∉ pyInsert s.connectedInputs i ∧
        j ∉ s.disconnectedInputs ∧
        ∀ k ∈ cfg.dynamicPorts, k ∉ pyInsert s.connectedInputs i →
          k ∉ s.disconnectedInputs → j ≤ k) ∨
      (spareScan cfg (pyInsert s.connectedInputs i) s.disconnectedInputs = -1 ∧
        ∀ k ∈ cfg.dynamicPorts, k ∈ pyInsert s.connectedInputs i ∨
          k ∈ s.disconnectedInputs)
    rcases spareScan_spec cfg (pyInsert s.connectedInputs i) s.disconnectedInputs with
      ⟨hneg, hall⟩ | ⟨j, hj, hjm, hjc, hjd⟩
    · exact Or.inr ⟨hneg, hall⟩
    · exact Or.inl ⟨j, hj, hjm, hjc, hjd, spareScan_least hwf.dyn_sorted hj⟩

/-- Witness for C2: connecting slot 3 (the initial spare) of the
dynamic-`{3,4,5,6,7}` controller. -/
theorem C2_connect_spare_witness :
    ∃ t : DState,
      input_connection_created cfgSpec (initState cfgSpec) 3 = (t, false) ∧
      (∀ k : Nat, k ∈ t.connectedInputs ↔
        k = 3 ∨ k ∈ (initState cfgSpec).connectedInputs) ∧
      t.activeInputCount = (initState cfgSpec).activeInputCount + 1 ∧
      t.disconnectedInputs = (initState cfgSpec).disconnectedInputs ∧
      ((∃ j : Nat, t.spareInputIndex = (j : Int) ∧ j ∈ cfgSpec.dynamicPorts ∧
          j ∉ t.connectedInputs ∧ j ∉ t.disconnectedInputs ∧
          ∀ k ∈ cfgSpec.dynamicPorts, k ∉ t.connectedInputs →
            k ∉ t.disconnectedInputs → j ≤ k) ∨
        (t.spareInputIndex = -1 ∧
          ∀ k ∈ cfgSpec.dynamicPorts, k ∈ t.connectedInputs ∨
            k ∈ t.disconnectedInputs)) :=
  C2_connect_spare cfgSpec (initState cfgSpec) 3
    (by refine ⟨?_, ?_, ?_, ?_, ?_⟩ <;> decide) ⟨[], rfl⟩ (by decide) (by decide)

/-- C8 counterexample: on the freshly constructed default
configuration (5 inputs, all dynamic) the out-of-range index 5 is
never visible — its `port_visible` entry does not exist and it never
appears in the visual ordering — yet `can_connect_to_port` returns
`True` for it, because the dictionary lookup defaults to `True` for
missing keys.  This falsifies "connectable iff visible" for indices
outside `[0, max_inputs)`. -/
theorem C8_counterexample :
    can_connect_to_port (initState cfgFive) 5 = true ∧
    (initState cfgFive).portVisible[5]? = none ∧
    5 ∉ get_visual_port_ordering cfgFive (initState cfgFive) := by
  decide

/-- C8 as amended: for indices inside `[0, max_inputs)`,
`can_connect_to_port` returns `True` exactly when the port is
currently visible (equivalently, when the derived display state shows
it: it is a dynamic index in the visual ordering or a static index);
for indices outside `[0, max_inputs)` the lookup hits the `True`
default even though such an index is never shown. -/
theorem C8_amended (cfg : Config) (s : DState) (hwf : cfg.Wf)
    (h : Reachable cfg s) :
    (∀ i : Nat, i < cfg.maxInputs →
      ((can_connect_to_port s i = true ↔ s.portVisible[i]? = some true) ∧
        (can_connect_to_port s i = true ↔
          i ∈ dynVisual cfg s ∨ i ∈ cfg.staticPorts))) ∧
    (∀ i : Nat, cfg.maxInputs ≤ i →
      can_connect_to_port s i = true ∧ s.portVisible[i]? = none ∧
      i ∉ get_visual_port_ordering cfg s) := by
  constructor
  · intro i hlt
    rw [can_connect_to_port_eq_getElem?, reachable_portVisible h i, if_pos hlt]
    constructor
    · cases hP : decide (i ∈ dynVisual cfg s ∨ i ∈ cfg.staticPorts) <;> simp [hP]
    · cases hP : decide (i ∈ dynVisual cfg s ∨ i ∈ cfg.staticPorts) <;>
        simp_all
  · intro i hge
    have hnone : s.portVisible[i]? = none := by
      rw [reachable_portVisible h i, if_neg (by omega)]
    refine ⟨?_, hnone, ?_⟩
    · rw [can_connect_to_port_eq_getElem?, hnone]
      rfl
    · intro hmem
      rcases mem_visual_ordering_part hmem with hs | hd
      · exact absurd (hwf.static_lt i hs) (by omega)
      · exact absurd (hwf.dyn_lt i hd) (by omega)

/-- Witness for C8 as amended, on the default five-input dynamic
configuration in its initial state. -/
theorem C8_amended_witness :
    (∀ i : Nat, i < cfgFive.maxInputs →
      ((can_connect_to_port (initState cfgFive) i = true ↔
          (initState cfgFive).portVisible[i]? = some true) ∧
        (can_connect_to_port (initState cfgFive) i = true ↔
          i ∈ dynVisual cfgFive (initState cfgFive) ∨ i ∈ cfgFive.staticPorts))) ∧
    (∀ i : Nat, cfgFive.maxInputs ≤ i →
      can_connect_to_port (initState cfgFive) i = true ∧
      (initState cfgFive).portVisible[i]? = none ∧
      i ∉ get_visual_port_ordering cfgFive (initState cfgFive)) :=
  C8_amended cfgFive (initState cfgFive)
    (by refine ⟨?_, ?_, ?_, ?_, ?_⟩ <;> decide) ⟨[], rfl⟩

/-- C9: in every reachable state every static slot is visible and
carries the original caption captured at construction, with a visible
caption — no connection event changes a static slot's display. -/
theorem C9_static_display (cfg : Config) (s : DState) (hwf : cfg.Wf)
    (h : Reachable cfg s) :
    ∀ i ∈ cfg.staticPorts,
      s.portVisible[i]? = some true ∧
      s.portCaption[i]? = some (cfg.origCaption i) ∧
      s.portCaptionVisible[i]? = some true := by
  intro i hi
  have hlt : i < cfg.maxInputs := hwf.static_lt i hi
  have hnd : i ∉ dynVisual cfg s := by
    intro hmem
    exact hwf.disj i hi (is_dynamic_port_iff.mp (mem_dynVisual.mp hmem).2)
  refine ⟨?_, ?_, ?_⟩
  · rw [reachable_portVisible h i, if_pos hlt]
    simp [hi]
  · rw [reachable_portCaption h i, if_pos hlt, if_neg hnd, if_pos hi]
    simp [origCaptionGet, hlt]
  · rw [reachable_portCaptionVisible h i, if_pos hlt]
    simp [hi]

/-- Witness for C9: static slot 0 of the mixed configuration after a
connection event on dynamic slot 1. -/
theorem C9_static_display_witness :
    0 ∈ cfgMixed.staticPorts ∧
    (runEvents cfgMixed (initState cfgMixed) [.created 1]).portVisible[0]? =
      some true ∧
    (runEvents cfgMixed (initState cfgMixed)
      [.created 1]).portCaption[0]? = some (cfgMixed.origCaption 0) ∧
    (runEvents cfgMixed (initState cfgMixed)
      [.created 1]).portCaptionVisible[0]? = some true :=
  ⟨by decide,
    C9_static_display cfgMixed _ (by refine ⟨?_, ?_, ?_, ?_, ?_⟩ <;> decide)
      ⟨[.created 1], rfl⟩ 0 (by decide)⟩

theorem deleted_disc_mono (cfg : Config) (s : DState) (j i : Nat)
    (hd : i ∈ s.disconnectedInputs) :
    i ∈ (input_connection_deleted cfg s j).disconnectedInputs := by
  unfold input_connection_deleted
  split
  · exact hd
  split
  · exact hd
  split
  · split
    · exact mem_pyInsert.mpr (Or.inr hd)
    · exact mem_pyInsert.mpr (Or.inr hd)
  split
  · exact mem_pyInsert.mpr (Or.inr hd)
  · exact hd

theorem created_disc_mono (cfg : Config) (s : DState) (j i : Nat)
    (hd : i ∈ s.disconnectedInputs) (hij : i ≠ j) :
    i ∈ (input_connection_created cfg s j).1.disconnectedInputs := by
  unfold input_connection_created
  split
  · exact hd
  split
  · exact hd
  split
  · exact hd
  split
  · exact mem_pyDiscard.mpr ⟨hd, hij⟩
  split
  · exact hd
  · exact hd

/-- C10: a slot in the disconnected set leaves it only through a
connection-created event at that same slot, which moves it back to the
connected set; spare re-scans skip disconnected indices, so in every
reachable state the spare is never a disconnected slot. -/
theorem C10_disconnected_stable (cfg : Config) :
    (∀ (s : DState) (e : Event) (i : Nat), i ∈ s.disconnectedInputs →
      i ∉ (applyEvent cfg s e).disconnectedInputs → e = Event.created i) ∧
    (∀ (s : DState) (i : Nat), i ∈ s.disconnectedInputs →
      is_static_port cfg i = false → is_dynamic_port cfg i = true →
      can_connect_to_port s i = true →
      ((∀ k : Nat, k ∈ (input_connection_created cfg s i).1.connectedInputs ↔
          k = i ∨ k ∈ s.connectedInputs) ∧
        i ∉ (input_connection_created cfg s i).1.disconnectedInputs)) ∧
    (∀ s : DState, Reachable cfg s →
      ∀ i ∈ s.disconnectedInputs, (i : Int) ≠ s.spareInputIndex) := by
  refine ⟨?_, ?_, ?_⟩
  · intro s e i hd hnd
    cases e with
    | created j =>
      by_cases hij : i = j
      · rw [hij]
      · exact absurd (created_disc_mono cfg s j i hd hij) hnd
    | deleted j =>
      exact absurd (deleted_disc_mono cfg s j i hd) hnd
  · intro s i hd hstat hdyn hvis
    rw [created_disconnected_eq hstat hdyn hvis hd]
    constructor
    · intro k
      show k ∈ pyInsert s.connectedInputs i ↔ _
      exact mem_pyInsert
    · show i ∉ pyDiscard s.disconnectedInputs i
      simp [mem_pyDiscard]
  · intro s hre i hd heq
    exact (inv_reachable hre).spare_not_disc i heq hd

/-- Witness for C10 on the dynamic-`{0,1,2}` controller in the state
with slot 0 disconnected (after connect 0, connect 1, disconnect 0):
re-connecting slot 0 removes it from the disconnected set and returns
it to the connected set, and the spare (2) is not the disconnected
slot. -/
theorem C10_disconnected_stable_witness :
    Event.created 0 = Event.created 0 ∧
    ((∀ k : Nat, k ∈ (input_connection_created cfgTriple
        (runEvents cfgTriple (initState cfgTriple)
          [.created 0, .created 1, .deleted 0]) 0).1.connectedInputs ↔
        k = 0 ∨ k ∈ (runEvents cfgTriple (initState cfgTriple)
          [.created 0, .created 1, .deleted 0]).connectedInputs) ∧
      0 ∉ (input_connection_created cfgTriple
        (runEvents cfgTriple (initState cfgTriple)
          [.created 0, .created 1, .deleted 0]) 0).1.disconnectedInputs) ∧
    (0 : Int) ≠ (runEvents cfgTriple (initState cfgTriple)
      [.created 0, .created 1, .deleted 0]).spareInputIndex :=
  ⟨(C10_disconnected_stable cfgTriple).1
      (runEvents cfgTriple (initState cfgTriple)
        [.created 0, .created 1, .deleted 0]) (.created 0) 0
      (by decide) (by decide),
    (C10_disconnected_stable cfgTriple).2.1
      (runEvents cfgTriple (initState cfgTriple)
        [.created 0, .created 1, .deleted 0]) 0
      (by decide) (by decide) (by decide) (by decide),
    (C10_disconnected_stable cfgTriple).2.2
      (runEvents cfgTriple (initState cfgTriple)
        [.created 0, .created 1, .deleted 0])
      ⟨[.created 0, .created 1, .deleted 0], rfl⟩ 0 (by decide)⟩

end DynamicNode
